import Mathlib

/-!
# Verification of the panoptoconverter core

Shallow embedding of the panoptoconverter repository's core logic:

* `InsvFrameProvider.frameAt` (providers module): single-slot cache, busy-flag
  concurrency guard, FFmpeg-fatal-error recovery (`reinit`), error propagation.
* projection math (`rotateVec`, `bilinearSample` in the app module).
* export orchestration (`extractFrames`): timestamp enumeration and output
  file naming.

Numbers are modelled by `ℚ` (exact rationals standing for the JS doubles) for
every executable definition, and by `ℝ` for the trigonometric rotation math.
-/

namespace Panopto

/-! ## Definitions: provider data model and `frameAt` (providers module), projection math, export orchestration, output naming, and concrete fixtures -/

/-- `Angle = {pitch, yaw, roll}` from the types module. -/
structure Angle where
  pitch : ℚ
  yaw : ℚ
  roll : ℚ
deriving DecidableEq, Repr

/-- `tsSec.toFixed(3)`: the timestamp component of the cache key, i.e. the
timestamp rounded to 1 ms (JS `toFixed` rounds half away from zero; export
timestamps are nonnegative, where that is `⌊x·1000 + 1/2⌋`). -/
def roundMs (t : ℚ) : ℤ := (t * 1000 + 1 / 2).floor

/-- The single-slot cache key built in `frameAt`:
`` `${tsSec.toFixed(3)}-${angle.pitch}-${angle.yaw}-${angle.roll}-${width}-${height}` ``.
The template string is injective in its components (each numeral contributes
one dash-free token), so the key is modelled as the component tuple. -/
structure FrameKey where
  tsMs : ℤ
  pitch : ℚ
  yaw : ℚ
  roll : ℚ
  width : ℕ
  height : ℕ
deriving DecidableEq, Repr

/-- Key construction in `frameAt`. -/
def mkKey (t pitch yaw roll : ℚ) (w h : ℕ) : FrameKey :=
  ⟨roundMs t, pitch, yaw, roll, w, h⟩

/-- `ProcessedFrame = { tsSec, dataUrl, width, height }` from the providers
module. -/
structure ProcessedFrame where
  tsSec : ℚ
  dataUrl : String
  width : ℕ
  height : ℕ
deriving DecidableEq, Repr

/-- Mutable fields of `InsvFrameProvider` observable by `frameAt`:
`loaded` abstracts `this.ffmpeg !== null && this.name !== null`. -/
structure ProviderState where
  loaded : Bool
  isProcessing : Bool
  lastProcessedKey : Option FrameKey
  lastProcessedResult : Option ProcessedFrame
deriving DecidableEq, Repr

/-- Environment of one `frameAt` invocation: the outcomes of the external
effects (`ffmpeg.exec`, `readFile`+`createImageBitmap`, canvas encode).
`execError = some m` means `ffmpeg.exec` threw an error with message `m`;
`readOk` is whether `readImage` produced a bitmap (non-null);
`encodeOk` is whether the canvas draw/encode block succeeded, in which case
`dataUrl` is the string `canvas.toDataURL('image/jpeg', 0.9)` returned. -/
structure BackendIO where
  execError : Option String
  readOk : Bool
  encodeOk : Bool
  dataUrl : String
deriving DecidableEq, Repr

/-- The errors `frameAt` can throw. -/
inductive FrameError where
  /-- `'FFmpeg not loaded'` -/
  | notLoaded
  /-- `'FFmpeg is busy'` (the busy / provider-busy error) -/
  | busy
  /-- a rethrown `ffmpeg.exec` error (message preserved) -/
  | backendFatal (msg : String)
  /-- `'Failed to extract reprojected frame'` -/
  | extractFailed
  /-- a failure in the canvas draw/encode block after the bitmap was read -/
  | encodeFailed
deriving DecidableEq, Repr

/-- `pat` occurs as a substring of `s` (JS `String.prototype.includes`). -/
def hasSubstr (pat s : String) : Bool :=
  s.toList.tails.any (fun suf => pat.toList.isPrefixOf suf)

/-- The fatal-error test in `frameAt`'s exec catch block:
`e?.message?.includes('out of bounds') || e?.message?.includes('Aborted')`. -/
def isFatalMsg (m : String) : Bool :=
  hasSubstr "out of bounds" m || hasSubstr "Aborted" m

/-- Observable outcome of one `frameAt` call: its return value or thrown
error, the provider state afterwards, whether `reinit()` ran (FFmpeg
terminated, reloaded and source remounted), and how many times
`ffmpeg.exec` was invoked. -/
structure FrameAtResult where
  result : Except FrameError ProcessedFrame
  state : ProviderState
  reinitialized : Bool
  execCount : ℕ
deriving Repr

instance : DecidableEq (Except FrameError ProcessedFrame) := fun a b =>
  match a, b with
  | .error x, .error y =>
      if h : x = y then .isTrue (h ▸ rfl) else .isFalse (fun hc => h (by cases hc; rfl))
  | .ok x, .ok y =>
      if h : x = y then .isTrue (h ▸ rfl) else .isFalse (fun hc => h (by cases hc; rfl))
  | .error _, .ok _ => .isFalse (fun hc => Except.noConfusion hc)
  | .ok _, .error _ => .isFalse (fun hc => Except.noConfusion hc)

instance : DecidableEq FrameAtResult := fun a b =>
  decidable_of_iff
    (a.result = b.result ∧ a.state = b.state ∧
      a.reinitialized = b.reinitialized ∧ a.execCount = b.execCount)
    (by cases a; cases b; simp)

/-- The body of `frameAt` past the loaded/cache/busy checks: sets
`_isProcessing`, runs `ffmpeg.exec`, reads the output image back, and (on
success) draws it to a canvas, encodes it, and updates the single-slot cache.
`_isProcessing` is reset in the `finally` block on every path, before the
canvas/encode section runs. -/
def frameAtRun (s : ProviderState) (io : BackendIO) (t : ℚ) (key : FrameKey)
    (w h : ℕ) : FrameAtResult :=
  -- after the try/finally the processing flag is always back to false
  let sDone : ProviderState := { s with isProcessing := false }
  -- success path: `this.lastProcessedKey = key; this.lastProcessedResult = result`
  let f : ProcessedFrame := ⟨t, io.dataUrl, w, h⟩
  let sCached : ProviderState :=
    ⟨sDone.loaded, sDone.isProcessing, some key, some f⟩
  match io.execError with
  | some m =>
      if isFatalMsg m then
        -- `await this.reinit(); throw e;`
        ⟨.error (.backendFatal m), sDone, true, 1⟩
      else
        -- the exec error is swallowed; `readImage(outName)` runs next
        if io.readOk then
          if io.encodeOk then ⟨.ok f, sCached, false, 1⟩
          else ⟨.error .encodeFailed, sDone, false, 1⟩
        else
          -- `if (!resultBitmap) throw new Error('Failed to extract reprojected frame')`
          ⟨.error .extractFailed, sDone, false, 1⟩
  | none =>
      if io.readOk then
        if io.encodeOk then ⟨.ok f, sCached, false, 1⟩
        else ⟨.error .encodeFailed, sDone, false, 1⟩
      else ⟨.error .extractFailed, sDone, false, 1⟩

/-- `InsvFrameProvider.frameAt(tsSec, angle, width, height)`.
Check order exactly as in the source: (1) `FFmpeg not loaded`,
(2) single-slot cache hit
(`this.lastProcessedKey === key && this.lastProcessedResult`),
(3) busy flag (`FFmpeg is busy`), then the exec/read/encode body. -/
def frameAt (s : ProviderState) (io : BackendIO) (t pitch yaw roll : ℚ)
    (w h : ℕ) : FrameAtResult :=
  if s.loaded = false then ⟨.error .notLoaded, s, false, 0⟩
  else
    let key := mkKey t pitch yaw roll w h
    match s.lastProcessedKey, s.lastProcessedResult with
    | some k, some r =>
        if k = key then ⟨.ok r, s, false, 0⟩
        else if s.isProcessing then ⟨.error .busy, s, false, 0⟩
        else frameAtRun s io t key w h
    | some _, none =>
        if s.isProcessing then ⟨.error .busy, s, false, 0⟩
        else frameAtRun s io t key w h
    | none, _ =>
        if s.isProcessing then ⟨.error .busy, s, false, 0⟩
        else frameAtRun s io t key w h

/-- An environment in which every backend effect succeeds. -/
def ioGood : BackendIO := ⟨none, true, true, "data:image/jpeg;base64,AAA"⟩

/-- A previously produced frame sitting in the single-slot cache. -/
def frame0 : ProcessedFrame := ⟨1, "data:image/jpeg;base64,OLD", 320, 240⟩

/-- Loaded provider, mid-`frameAt` (`_isProcessing = true`), whose single-slot
cache holds the result of an earlier call for `(1s, {0,0,0}, 320×240)`.
Reachable: complete that call, then start a second call with different
arguments and observe the state while it is in flight. -/
def sBusyCached : ProviderState :=
  ⟨true, true, some (mkKey 1 0 0 0 320 240), some frame0⟩

/-- Loaded provider, mid-`frameAt`, with an empty cache. -/
def sBusyEmpty : ProviderState := ⟨true, true, none, none⟩

/-- Loaded, idle provider with an empty cache (fresh after `load`). -/
def sReady : ProviderState := ⟨true, false, none, none⟩

/-- Loaded, idle provider caching the key `(1s, {0,0,0}, 320×240)`. -/
def sReadyCached : ProviderState :=
  ⟨true, false, some (mkKey 1 0 0 0 320 240), some frame0⟩

/-- A provider that was never loaded. -/
def sUnloaded : ProviderState := ⟨false, false, none, none⟩

/-- An `ffmpeg.exec` failure environment whose message marks a backend abort. -/
def ioFatal : BackendIO := ⟨some "Aborted(). Build with -sASSERTIONS", false, false, ""⟩

/-- A non-fatal `ffmpeg.exec` failure environment (conversion error). -/
def ioNonFatal : BackendIO := ⟨some "Conversion failed!", false, false, ""⟩

/-- A 3-vector, modelling the `{x, y, z}` object returned by `rotateVec`. -/
structure Vec3 where
  x : ℝ
  y : ℝ
  z : ℝ

/-- `toRad(deg) = deg * Math.PI / 180`. -/
noncomputable def toRad (deg : ℝ) : ℝ := deg * Real.pi / 180

/-- `rotateVec(vx, vy, vz, yawDeg, pitchDeg, rollDeg)`: the in-app rotation,
written exactly as the source computes it (yaw step, then pitch step, then
roll step). -/
noncomputable def rotateVec (vx vy vz yawDeg pitchDeg rollDeg : ℝ) : Vec3 :=
  let yaw := toRad yawDeg
  let pitch := toRad pitchDeg
  let roll := toRad rollDeg
  -- Ry(yaw)
  let x := vx * Real.cos yaw + vz * Real.sin yaw
  let y := vy
  let z := -vx * Real.sin yaw + vz * Real.cos yaw
  -- Rx(pitch)
  let x2 := x
  let y2 := y * Real.cos pitch - z * Real.sin pitch
  let z2 := y * Real.sin pitch + z * Real.cos pitch
  -- Rz(roll)
  let xr := x2 * Real.cos roll - y2 * Real.sin roll
  let yr := x2 * Real.sin roll + y2 * Real.cos roll
  let zr := z2
  ⟨xr, yr, zr⟩

/-- Modelled from the spec's words: the standard 3×3 rotation matrix about
the vertical (y) axis. -/
noncomputable def rotYMat (θ : ℝ) : Matrix (Fin 3) (Fin 3) ℝ :=
  !![Real.cos θ, 0, Real.sin θ; 0, 1, 0; -Real.sin θ, 0, Real.cos θ]

/-- Modelled from the spec's words: the standard 3×3 rotation matrix about
the horizontal (x) axis. -/
noncomputable def rotXMat (θ : ℝ) : Matrix (Fin 3) (Fin 3) ℝ :=
  !![1, 0, 0; 0, Real.cos θ, -Real.sin θ; 0, Real.sin θ, Real.cos θ]

/-- Modelled from the spec's words: the standard 3×3 rotation matrix about
the optical (z, view-forward) axis. -/
noncomputable def rotZMat (θ : ℝ) : Matrix (Fin 3) (Fin 3) ℝ :=
  !![Real.cos θ, -Real.sin θ, 0; Real.sin θ, Real.cos θ, 0; 0, 0, 1]

/-- View a `Vec3` as a column vector. -/
def Vec3.toFn (v : Vec3) : Fin 3 → ℝ := ![v.x, v.y, v.z]

/-- `ImageData`: width, height, and the row-major RGBA sample buffer
(`Uint8ClampedArray`, 4 samples per pixel). -/
structure ImageData where
  width : ℕ
  height : ℕ
  data : List ℕ
deriving DecidableEq, Repr

/-- `Math.round`: round half toward positive infinity. -/
def jsRound (q : ℚ) : ℤ := (q + 1 / 2).floor

/-- Storing into a `Uint8ClampedArray` clamps to `[0, 255]`. -/
def clamp255 (n : ℤ) : ℕ := (min 255 (max 0 n)).toNat

/-- One channel of `bilinearSample(img, u, v)`: wrap `u` via `u - floor(u)`,
clamp `v` into `[0,1]`, then 4-tap bilinear interpolation over the 2×2
neighborhood, rounded to the nearest integer sample value. Mirrors the
source line by line; the source writes channel `c` of the result into
`out[o+c]`. -/
def bilinearChannel (img : ImageData) (u v : ℚ) (c : ℕ) : ℕ :=
  let w := img.width
  let h := img.height
  -- wrap u
  let u' : ℚ := u - (u.floor : ℤ)
  -- clamp v
  let v' : ℚ := max 0 (min 1 v)
  let x : ℚ := u' * ((w : ℚ) - 1)
  let y : ℚ := v' * ((h : ℚ) - 1)
  let x0 : ℤ := x.floor
  let y0 : ℤ := y.floor
  let x1 : ℤ := min (x0 + 1) ((w : ℤ) - 1)
  let y1 : ℤ := min (y0 + 1) ((h : ℤ) - 1)
  let dx : ℚ := x - (x0 : ℚ)
  let dy : ℚ := y - (y0 : ℚ)
  let idx : ℤ → ℤ → ℤ := fun xx yy => (yy * (w : ℤ) + xx) * 4
  let pix : ℤ → ℚ := fun i => ((img.data.getD (i + (c : ℤ)).toNat 0 : ℕ) : ℚ)
  let p00 := pix (idx x0 y0)
  let p10 := pix (idx x1 y0)
  let p01 := pix (idx x0 y1)
  let p11 := pix (idx x1 y1)
  let p0 := p00 + (p10 - p00) * dx
  let p1 := p01 + (p11 - p01) * dx
  clamp255 (jsRound (p0 + (p1 - p0) * dy))

/-- `bilinearSample(img, u, v)`: the four RGBA channel values written to
`out[o..o+3]`. -/
def bilinearSample (img : ImageData) (u v : ℚ) : List ℕ :=
  [bilinearChannel img u v 0, bilinearChannel img u v 1,
    bilinearChannel img u v 2, bilinearChannel img u v 3]

/-- A concrete 2×2 source raster with distinct channel values. -/
def imgTest : ImageData :=
  ⟨2, 2, [10, 20, 30, 40, 50, 60, 70, 80, 90, 100, 110, 120, 130, 140, 150, 160]⟩

/-- `VirtualCamera` from the types module. -/
structure VirtualCamera where
  id : ℕ
  label : String
  previewDataUrl : String
  time : ℚ
  angle : Angle
deriving DecidableEq, Repr

/-- `step = 1 / Math.max(1, samplesPerSecond)` (the UI field is an integer
input with `min="1"`). -/
def stepOf (sps : ℕ) : ℚ := 1 / ((max 1 sps : ℕ) : ℚ)

/-- The timestamp loop of `extractFrames`:
`for (let t = 0; t <= duration + 1e-6; t += step) times.push(Math.min(t, duration))`,
modelled from the loop variable `t` onward. -/
def timesFrom (duration : ℚ) (sps : ℕ) (t : ℚ) : List ℚ :=
  if h : t ≤ duration + 1/1000000 then
    min t duration :: timesFrom duration sps (t + stepOf sps)
  else []
termination_by (⌊(duration + 1/1000000 - t) * ((max 1 sps : ℕ) : ℚ)⌋ + 1).toNat
decreasing_by
  have hm : (0 : ℚ) < ((max 1 sps : ℕ) : ℚ) :=
    Nat.cast_pos.mpr (lt_of_lt_of_le one_pos (le_max_left 1 sps))
  have hX : 0 ≤ (duration + 1/1000000 - t) * ((max 1 sps : ℕ) : ℚ) :=
    mul_nonneg (by linarith) hm.le
  have key : (duration + 1/1000000 - (t + stepOf sps)) * ((max 1 sps : ℕ) : ℚ)
      = (duration + 1/1000000 - t) * ((max 1 sps : ℕ) : ℚ) - 1 := by
    unfold stepOf
    field_simp
    ring
  rw [key, Int.floor_sub_one]
  have hfl : 0 ≤ ⌊(duration + 1/1000000 - t) * ((max 1 sps : ℕ) : ℚ)⌋ :=
    Int.floor_nonneg.mpr hX
  omega

/-- The `times` array built by `extractFrames`. -/
def exportTimes (duration : ℚ) (sps : ℕ) : List ℚ := timesFrom duration sps 0

/-- The export cells: `for (const ts of times) for (const cam of angles)`. -/
def exportCells (duration : ℚ) (sps : ℕ) (cams : List VirtualCamera) :
    List (ℚ × VirtualCamera) :=
  (exportTimes duration sps).flatMap fun ts => cams.map fun cam => (ts, cam)

/-- A character matched by the class `[a-z0-9-_]` with the `i` flag, i.e. an
ASCII letter (either case), a digit, `'-'` or `'_'`. -/
def isSafeChar (c : Char) : Bool := c.isAlphanum || c == '-' || c == '_'

/-- `label.replace(/[^a-z0-9-_]+/gi, '_')`: the regex matches each maximal
run of characters outside the class and replaces it with a single `'_'`.
The flag records whether the previous character was part of such a run. -/
def sanitizeAux : Bool → List Char → List Char
  | _, [] => []
  | prevBad, c :: rest =>
    if isSafeChar c then c :: sanitizeAux false rest
    else if prevBad then sanitizeAux true rest
    else '_' :: sanitizeAux true rest

/-- The sanitized label (see `sanitizeAux`). -/
def sanitizeLabel (s : String) : String := ⟨sanitizeAux false s.toList⟩

/-- `ts.toFixed(2).replace(/\./g, '_')` for the nonnegative timestamps the
export loop produces: round to 2 decimals, print with exactly two decimal
digits, decimal point replaced by `'_'`. -/
def tsUnderscore (ts : ℚ) : String :=
  let n : ℤ := (ts * 100 + 1 / 2).floor
  toString (n / 100) ++ "_" ++
    (if n % 100 < 10 then "0" ++ toString (n % 100) else toString (n % 100))

/-- The per-cell output name built by `extractFrames`:
`` `${cam.label.replace(/[^a-z0-9-_]+/gi, '_') || `Angle_${cam.id}`}_${tsStr}.jpg` ``. -/
def fileName (label : String) (id : ℕ) (ts : ℚ) : String :=
  let safe := sanitizeLabel label
  (if safe = "" then "Angle_" ++ toString id else safe)
    ++ "_" ++ tsUnderscore ts ++ ".jpg"

/-- Modelled from the spec's words (the claim as stated): sanitization that
replaces each single character outside `[a-zA-Z0-9-_]` with `'_'`. -/
def sanitizePerChar (s : String) : String :=
  ⟨s.toList.map fun c => if isSafeChar c then c else '_'⟩

/-- The output name the claim as stated predicts (per-character
sanitization, same fallback and suffix). -/
def fileNamePerChar (label : String) (id : ℕ) (ts : ℚ) : String :=
  let safe := sanitizePerChar label
  (if safe = "" then "Angle_" ++ toString id else safe)
    ++ "_" ++ tsUnderscore ts ++ ".jpg"

/-- The amended claim's description of sanitization, stated independently:
each maximal run of characters outside `[a-zA-Z0-9-_]` becomes one `'_'`. -/
def sanitizeRuns : List Char → List Char
  | [] => []
  | c :: rest =>
    if isSafeChar c then c :: sanitizeRuns rest
    else '_' :: sanitizeRuns (rest.dropWhile fun d => ! isSafeChar d)
termination_by l => l.length
decreasing_by
  all_goals simp_wf
  all_goals have := (List.dropWhile_sublist (l := rest)
    fun d => ! isSafeChar d).length_le
  all_goals omega

/-- The output name under the amended claim's description. -/
def fileNameRuns (label : String) (id : ℕ) (ts : ℚ) : String :=
  let safe : String := ⟨sanitizeRuns label.toList⟩
  (if safe = "" then "Angle_" ++ toString id else safe)
    ++ "_" ++ tsUnderscore ts ++ ".jpg"

/-! ## Theorems -/

/-- The run body always invokes `ffmpeg.exec` exactly once. -/
theorem frameAtRun_execCount (s : ProviderState) (io : BackendIO) (t : ℚ)
    (key : FrameKey) (w h : ℕ) : (frameAtRun s io t key w h).execCount = 1 := by
  unfold frameAtRun
  rcases io.execError with _ | m <;> dsimp only <;> split_ifs <;> rfl

/-- The run body never leaves the processing flag set. -/
theorem frameAtRun_not_processing (s : ProviderState) (io : BackendIO) (t : ℚ)
    (key : FrameKey) (w h : ℕ) :
    (frameAtRun s io t key w h).state.isProcessing = false := by
  unfold frameAtRun
  rcases io.execError with _ | m <;> dsimp only <;> split_ifs <;> rfl

/-- When the provider is loaded, idle and the request misses the single-slot
cache, `frameAt` falls through to the exec/read/encode body. -/
theorem frameAt_miss_run (s : ProviderState) (io : BackendIO)
    (t p yw rl : ℚ) (w h : ℕ)
    (hload : s.loaded = true) (hidle : s.isProcessing = false)
    (hmiss : s.lastProcessedKey ≠ some (mkKey t p yw rl w h) ∨
      s.lastProcessedResult = none) :
    frameAt s io t p yw rl w h = frameAtRun s io t (mkKey t p yw rl w h) w h := by
  rcases s with ⟨l, pr, ko, ro⟩
  dsimp only at hload hidle
  subst hload; subst hidle
  rcases ko with _ | k <;> rcases ro with _ | r <;>
    simp only [frameAt, Bool.true_eq_false, Bool.false_eq_true, if_false,
      ite_false] <;> try rfl
  rw [if_neg]
  intro hkey
  rcases hmiss with hm | hm
  · exact hm (by dsimp only; rw [hkey])
  · cases hm

/-- A cache hit: loaded provider whose single-slot cache holds exactly the
requested key returns the cached frame untouched, with no backend call. -/
theorem frameAt_cache_hit (s : ProviderState) (io : BackendIO)
    (t p yw rl : ℚ) (w h : ℕ) (f : ProcessedFrame)
    (hload : s.loaded = true)
    (hk : s.lastProcessedKey = some (mkKey t p yw rl w h))
    (hr : s.lastProcessedResult = some f) :
    frameAt s io t p yw rl w h = ⟨.ok f, s, false, 0⟩ := by
  rcases s with ⟨l, pr, ko, ro⟩
  dsimp only at hload hk hr
  subst hload; subst hk; subst hr
  simp only [frameAt, Bool.true_eq_false, if_false, ite_true, if_pos rfl]

/-- A successful `frameAt` leaves the provider loaded, with the single-slot
cache holding the request's key and the returned frame. -/
theorem frameAt_ok_inv (s : ProviderState) (io : BackendIO)
    (t p yw rl : ℚ) (w h : ℕ) (f : ProcessedFrame)
    (h1 : (frameAt s io t p yw rl w h).result = .ok f) :
    (frameAt s io t p yw rl w h).state.loaded = true ∧
    (frameAt s io t p yw rl w h).state.lastProcessedKey
      = some (mkKey t p yw rl w h) ∧
    (frameAt s io t p yw rl w h).state.lastProcessedResult = some f := by
  rcases s with ⟨l, pr, ko, ro⟩
  rcases io with ⟨ee, rdOk, encOk, du⟩
  cases l <;> cases pr <;> rcases ko with _ | k <;> rcases ro with _ | r <;>
    rcases ee with _ | m <;> cases rdOk <;> cases encOk <;>
      simp only [frameAt, frameAtRun, Bool.true_eq_false, Bool.false_eq_true,
        if_false, if_true, ite_true, ite_false] at h1 ⊢ <;>
        (try split_ifs at h1 ⊢) <;> (try cases h1) <;> simp_all

/-- C1 counterexample: the claim says every `frameAt` issued while a call is
in flight throws the busy error, but the cache check precedes the busy check:
with the provider `Processing` and the request equal to the cached key,
`frameAt` returns the cached frame and does not throw `'FFmpeg is busy'`. -/
theorem frameAt_busy_claim_counterexample :
    (frameAt sBusyCached ioGood 1 0 0 0 320 240).result = .ok frame0 ∧
    (frameAt sBusyCached ioGood 1 0 0 0 320 240).result
      ≠ .error .busy := by
  have h := frameAt_cache_hit sBusyCached ioGood 1 0 0 0 320 240 frame0
    rfl rfl rfl
  rw [h]
  exact ⟨rfl, fun hc => Except.noConfusion hc⟩

/-- C1 (amended): while a `frameAt` call is in flight (`Processing`), a second
call that does not hit the single-slot cache fails immediately with the busy
error (`'FFmpeg is busy'`); it is never blocked or queued — the state is
unchanged and the backend is not invoked. -/
theorem frameAt_busy_reject (s : ProviderState) (io : BackendIO)
    (t p yw rl : ℚ) (w h : ℕ)
    (hload : s.loaded = true) (hproc : s.isProcessing = true)
    (hmiss : s.lastProcessedKey ≠ some (mkKey t p yw rl w h) ∨
      s.lastProcessedResult = none) :
    frameAt s io t p yw rl w h = ⟨.error .busy, s, false, 0⟩ := by
  rcases s with ⟨l, pr, ko, ro⟩
  dsimp only at hload hproc
  subst hload; subst hproc
  rcases ko with _ | k <;> rcases ro with _ | r <;>
    simp only [frameAt, Bool.true_eq_false, if_false, ite_true, if_true] <;>
      try rfl
  rw [if_neg]
  intro hkey
  rcases hmiss with hm | hm
  · exact hm (by dsimp only; rw [hkey])
  · cases hm

/-- Witness for C1 (amended) at the concrete busy provider `sBusyEmpty`. -/
theorem frameAt_busy_reject_witness :
    (sBusyEmpty.loaded = true ∧ sBusyEmpty.isProcessing = true ∧
      sBusyEmpty.lastProcessedResult = none) ∧
    frameAt sBusyEmpty ioGood 5 0 0 0 64 64
      = ⟨.error .busy, sBusyEmpty, false, 0⟩ :=
  ⟨⟨rfl, rfl, rfl⟩,
    frameAt_busy_reject sBusyEmpty ioGood 5 0 0 0 64 64 rfl rfl (Or.inr rfl)⟩

/-- C2: if `frameAt(t, angle, w, h)` succeeds, an immediately repeated call
with identical arguments (under any backend environment) returns the very
same cached `ProcessedFrame`, leaves the state unchanged, and does not invoke
the backend again. -/
theorem frameAt_idempotent (s : ProviderState) (io io2 : BackendIO)
    (t p yw rl : ℚ) (w h : ℕ) (f : ProcessedFrame)
    (h1 : (frameAt s io t p yw rl w h).result = .ok f) :
    frameAt (frameAt s io t p yw rl w h).state io2 t p yw rl w h
      = ⟨.ok f, (frameAt s io t p yw rl w h).state, false, 0⟩ := by
  obtain ⟨hl, hk, hr⟩ := frameAt_ok_inv s io t p yw rl w h f h1
  exact frameAt_cache_hit _ io2 t p yw rl w h f hl hk hr

/-- Witness for C2: a concrete successful first call through `sReady` and
`ioGood`, then the cached repeat. -/
theorem frameAt_idempotent_witness :
    ((frameAt sReady ioGood 2 0 0 0 10 5).result
        = .ok ⟨2, ioGood.dataUrl, 10, 5⟩) ∧
    frameAt (frameAt sReady ioGood 2 0 0 0 10 5).state ioGood 2 0 0 0 10 5
      = ⟨.ok ⟨2, ioGood.dataUrl, 10, 5⟩,
          (frameAt sReady ioGood 2 0 0 0 10 5).state, false, 0⟩ := by
  have h1 : (frameAt sReady ioGood 2 0 0 0 10 5).result
      = .ok ⟨2, ioGood.dataUrl, 10, 5⟩ := by
    rw [frameAt_miss_run sReady ioGood 2 0 0 0 10 5 rfl rfl (Or.inr rfl)]
    rfl
  exact ⟨h1, frameAt_idempotent sReady ioGood ioGood 2 0 0 0 10 5 _ h1⟩

/-- C3: when `ffmpeg.exec` fails with a message containing `'out of bounds'`
or `'Aborted'`, the provider tears down and reinitializes FFmpeg
(`reinitialized = true`: terminate, reload, remount) and then rethrows the
original error to this caller; the call is not retried (`execCount = 1`) and
the cache and loaded flag are untouched. -/
theorem frameAt_fatal_reinit (s : ProviderState) (io : BackendIO)
    (t p yw rl : ℚ) (w h : ℕ) (m : String)
    (hload : s.loaded = true) (hidle : s.isProcessing = false)
    (hmiss : s.lastProcessedKey ≠ some (mkKey t p yw rl w h) ∨
      s.lastProcessedResult = none)
    (hexec : io.execError = some m) (hfatal : isFatalMsg m = true) :
    frameAt s io t p yw rl w h = ⟨.error (.backendFatal m), s, true, 1⟩ := by
  rw [frameAt_miss_run s io t p yw rl w h hload hidle hmiss]
  unfold frameAtRun
  rw [hexec]
  dsimp only
  rw [if_pos hfatal]
  rcases s with ⟨l, pr, ko, ro⟩
  dsimp only at hidle
  subst hidle
  rfl

/-- Witness for C3 at the concrete idle provider `sReadyCached` and a
different request key. -/
theorem frameAt_fatal_reinit_witness :
    (sReadyCached.loaded = true ∧ sReadyCached.isProcessing = false ∧
      isFatalMsg "Aborted(). Build with -sASSERTIONS" = true) ∧
    frameAt sReadyCached ioFatal 1 0 0 0 64 64
      = ⟨.error (.backendFatal "Aborted(). Build with -sASSERTIONS"),
          sReadyCached, true, 1⟩ :=
  ⟨⟨rfl, rfl, by decide⟩,
    frameAt_fatal_reinit sReadyCached ioFatal 1 0 0 0 64 64 _ rfl rfl
      (Or.inl (by
        intro hc
        have : (320 : ℕ) = 64 := congrArg FrameKey.width (Option.some.inj hc)
        cases this))
      rfl (by decide)⟩

/-- C4: whenever `frameAt` terminates with an error — any error, in any
provider state — the single-slot cache `(lastProcessedKey,
lastProcessedResult)` afterwards is exactly what it was before the call. -/
theorem frameAt_error_preserves_cache (s : ProviderState) (io : BackendIO)
    (t p yw rl : ℚ) (w h : ℕ) (e : FrameError)
    (herr : (frameAt s io t p yw rl w h).result = .error e) :
    (frameAt s io t p yw rl w h).state.lastProcessedKey = s.lastProcessedKey ∧
    (frameAt s io t p yw rl w h).state.lastProcessedResult
      = s.lastProcessedResult := by
  rcases s with ⟨l, pr, ko, ro⟩
  rcases io with ⟨ee, rdOk, encOk, du⟩
  cases l <;> cases pr <;> rcases ko with _ | k <;> rcases ro with _ | r <;>
    rcases ee with _ | m <;> cases rdOk <;> cases encOk <;>
      simp only [frameAt, frameAtRun, Bool.true_eq_false, Bool.false_eq_true,
        if_false, if_true, ite_true, ite_false] at herr ⊢ <;>
        (try split_ifs at herr ⊢) <;> (try cases herr) <;> simp_all

/-- Witness for C4: the concrete fatal-error call against `sReadyCached`
leaves its cached key and frame in place. -/
theorem frameAt_error_preserves_cache_witness :
    ((frameAt sReadyCached ioFatal 1 0 0 0 64 64).result
        = .error (.backendFatal "Aborted(). Build with -sASSERTIONS")) ∧
    (frameAt sReadyCached ioFatal 1 0 0 0 64 64).state.lastProcessedKey
        = sReadyCached.lastProcessedKey ∧
    (frameAt sReadyCached ioFatal 1 0 0 0 64 64).state.lastProcessedResult
        = sReadyCached.lastProcessedResult := by
  have herr : (frameAt sReadyCached ioFatal 1 0 0 0 64 64).result
      = .error (.backendFatal "Aborted(). Build with -sASSERTIONS") := by
    rw [frameAt_miss_run sReadyCached ioFatal 1 0 0 0 64 64 rfl rfl
      (Or.inl (by
        intro hc
        have : (320 : ℕ) = 64 := congrArg FrameKey.width (Option.some.inj hc)
        cases this))]
    unfold frameAtRun
    simp only [ioFatal]
    rw [if_pos (by decide : isFatalMsg "Aborted(). Build with -sASSERTIONS" = true)]
  exact ⟨herr,
    frameAt_error_preserves_cache sReadyCached ioFatal 1 0 0 0 64 64 _ herr⟩

/-- C5: the cache key uses the timestamp rounded to 1 ms (`toFixed(3)`), and
for a loaded, idle provider whose single-slot cache holds the key of
`(t, pitch, yaw, roll, w, h)`, a call differing in any single key component —
timestamp (at 1 ms granularity), pitch, yaw, roll, width or height — misses
the cache and invokes the backend (`execCount = 1`, no stale hit). -/
theorem frameAt_key_sensitivity (s : ProviderState) (io : BackendIO)
    (t t' p p' yw yw' rl rl' : ℚ) (w w' h h' : ℕ)
    (hload : s.loaded = true) (hidle : s.isProcessing = false)
    (hkey : s.lastProcessedKey = some (mkKey t p yw rl w h)) :
    (mkKey t' p yw rl w h = mkKey t p yw rl w h ↔ roundMs t' = roundMs t) ∧
    (roundMs t' ≠ roundMs t →
      (frameAt s io t' p yw rl w h).execCount = 1) ∧
    (p' ≠ p → (frameAt s io t p' yw rl w h).execCount = 1) ∧
    (yw' ≠ yw → (frameAt s io t p yw' rl w h).execCount = 1) ∧
    (rl' ≠ rl → (frameAt s io t p yw rl' w h).execCount = 1) ∧
    (w' ≠ w → (frameAt s io t p yw rl w' h).execCount = 1) ∧
    (h' ≠ h → (frameAt s io t p yw rl w h').execCount = 1) := by
  have miss : ∀ (t2 p2 y2 r2 : ℚ) (w2 h2 : ℕ),
      mkKey t2 p2 y2 r2 w2 h2 ≠ mkKey t p yw rl w h →
      (frameAt s io t2 p2 y2 r2 w2 h2).execCount = 1 := by
    intro t2 p2 y2 r2 w2 h2 hne
    rw [frameAt_miss_run s io t2 p2 y2 r2 w2 h2 hload hidle
      (Or.inl (by rw [hkey]; exact fun hc => hne (Option.some.inj hc).symm))]
    exact frameAtRun_execCount ..
  refine ⟨?_, ?_, ?_, ?_, ?_, ?_, ?_⟩
  · constructor
    · intro hc; exact congrArg FrameKey.tsMs hc
    · intro hc; simp only [mkKey, hc]
  · intro hne; exact miss _ _ _ _ _ _ (by simp [mkKey, hne])
  · intro hne; exact miss _ _ _ _ _ _ (by simp [mkKey, hne])
  · intro hne; exact miss _ _ _ _ _ _ (by simp [mkKey, hne])
  · intro hne; exact miss _ _ _ _ _ _ (by simp [mkKey, hne])
  · intro hne; exact miss _ _ _ _ _ _ (by simp [mkKey, hne])
  · intro hne; exact miss _ _ _ _ _ _ (by simp [mkKey, hne])

/-- Witness for C5: against the concrete cached key `(1s, {0,0,0}, 320×240)`,
changing the pitch to 5 re-invokes the backend. -/
theorem frameAt_key_sensitivity_witness :
    (sReadyCached.loaded = true ∧ sReadyCached.isProcessing = false ∧
      (5 : ℚ) ≠ 0) ∧
    (frameAt sReadyCached ioGood 1 5 0 0 320 240).execCount = 1 :=
  ⟨⟨rfl, rfl, by norm_num⟩,
    (frameAt_key_sensitivity sReadyCached ioGood 1 1 0 5 0 0 0 0 320 320
      240 240 rfl rfl rfl).2.2.1 (by norm_num)⟩

/-- C10: when `ffmpeg.exec` fails with a message containing neither
`'out of bounds'` nor `'Aborted'`, the error is swallowed — no backend
reinitialization happens (`reinitialized = false`) — and, the output file
read failing, `frameAt` instead throws the generic
`'Failed to extract reprojected frame'` error; the original exec error never
reaches the caller, and the cache is untouched. -/
theorem frameAt_nonfatal_swallowed (s : ProviderState) (io : BackendIO)
    (t p yw rl : ℚ) (w h : ℕ) (m : String)
    (hload : s.loaded = true) (hidle : s.isProcessing = false)
    (hmiss : s.lastProcessedKey ≠ some (mkKey t p yw rl w h) ∨
      s.lastProcessedResult = none)
    (hexec : io.execError = some m) (hnonfatal : isFatalMsg m = false)
    (hread : io.readOk = false) :
    frameAt s io t p yw rl w h = ⟨.error .extractFailed, s, false, 1⟩ := by
  rw [frameAt_miss_run s io t p yw rl w h hload hidle hmiss]
  unfold frameAtRun
  rw [hexec]
  dsimp only
  rw [if_neg (by rw [hnonfatal]; exact Bool.false_ne_true), if_neg (by
    rw [hread]; exact Bool.false_ne_true)]
  rcases s with ⟨l, pr, ko, ro⟩
  dsimp only at hidle
  subst hidle
  rfl

/-- Witness for C10 at the concrete idle provider `sReady`. -/
theorem frameAt_nonfatal_swallowed_witness :
    (sReady.loaded = true ∧ sReady.isProcessing = false ∧
      isFatalMsg "Conversion failed!" = false ∧ ioNonFatal.readOk = false) ∧
    frameAt sReady ioNonFatal 3 0 0 0 100 50
      = ⟨.error .extractFailed, sReady, false, 1⟩ :=
  ⟨⟨rfl, rfl, by decide, rfl⟩,
    frameAt_nonfatal_swallowed sReady ioNonFatal 3 0 0 0 100 50 _ rfl rfl
      (Or.inr rfl) rfl (by decide) rfl⟩

/-- C6: `rotateVec` is the standard yaw-about-vertical, then
pitch-about-horizontal, then roll-about-optical rotation chain (each a
standard 3×3 rotation matrix, composed in exactly that order), and at angles
`(0,0,0)` it is the identity (exactly, in the real-number model). -/
theorem rotateVec_order_and_identity (vx vy vz yawDeg pitchDeg rollDeg : ℝ) :
    rotateVec vx vy vz 0 0 0 = ⟨vx, vy, vz⟩ ∧
    (rotateVec vx vy vz yawDeg pitchDeg rollDeg).toFn
      = (rotZMat (toRad rollDeg)).mulVec
          ((rotXMat (toRad pitchDeg)).mulVec
            ((rotYMat (toRad yawDeg)).mulVec ![vx, vy, vz])) := by
  constructor
  · simp only [rotateVec, toRad, zero_mul, zero_div, Real.cos_zero,
      Real.sin_zero]
    norm_num
  · funext i
    fin_cases i <;>
      simp [rotateVec, rotYMat, rotXMat, rotZMat, Vec3.toFn, Matrix.mulVec,
        Matrix.dotProduct, Fin.sum_univ_three, Matrix.vecHead,
        Matrix.vecTail] <;> ring

/-- Bridge between the computable `Rat.floor` and `⌊⌋`. -/
theorem ratFloor_eq_intFloor (q : ℚ) : q.floor = ⌊q⌋ := by
  rw [Rat.floor_def', Rat.floor_def]

/-- The sample depends on `u` only through `u - floor(u)` and on `v` only
through `clamp(v, 0, 1)`. -/
theorem bilinearChannel_congr (img : ImageData) (u₁ u₂ v₁ v₂ : ℚ) (c : ℕ)
    (hu : u₁ - ((u₁.floor : ℤ) : ℚ) = u₂ - ((u₂.floor : ℤ) : ℚ))
    (hv : max 0 (min 1 v₁) = max 0 (min 1 v₂)) :
    bilinearChannel img u₁ v₁ c = bilinearChannel img u₂ v₂ c := by
  unfold bilinearChannel
  rw [hu, hv]

/-- C7: bilinear sampling wraps `u` into `[0,1)` via `u - floor(u)` and
clamps `v` into `[0,1]`: sampling at `u = -0.001` equals sampling at
`u = 0.999`; sampling at any `v < 0` equals sampling at `v = 0`; sampling at
any `v > 1` equals sampling at `v = 1`. -/
theorem bilinearSample_wrap_clamp (img : ImageData) (u v : ℚ) :
    bilinearSample img (-1/1000) v = bilinearSample img (999/1000) v ∧
    (v < 0 → bilinearSample img u v = bilinearSample img u 0) ∧
    (1 < v → bilinearSample img u v = bilinearSample img u 1) := by
  refine ⟨?_, ?_, ?_⟩
  · have hu : (-1/1000 : ℚ) - (((-1/1000 : ℚ).floor : ℤ) : ℚ)
        = (999/1000 : ℚ) - (((999/1000 : ℚ).floor : ℤ) : ℚ) := by
      rw [ratFloor_eq_intFloor, ratFloor_eq_intFloor]
      norm_num
    unfold bilinearSample
    rw [bilinearChannel_congr img _ _ v v 0 hu rfl,
      bilinearChannel_congr img _ _ v v 1 hu rfl,
      bilinearChannel_congr img _ _ v v 2 hu rfl,
      bilinearChannel_congr img _ _ v v 3 hu rfl]
  · intro hv
    have hcl : max 0 (min 1 v) = max 0 (min 1 (0 : ℚ)) := by
      rw [min_eq_right (le_of_lt (lt_trans hv one_pos)),
        max_eq_left (le_of_lt hv), min_eq_right zero_le_one, max_self]
    unfold bilinearSample
    rw [bilinearChannel_congr img u u _ _ 0 rfl hcl,
      bilinearChannel_congr img u u _ _ 1 rfl hcl,
      bilinearChannel_congr img u u _ _ 2 rfl hcl,
      bilinearChannel_congr img u u _ _ 3 rfl hcl]
  · intro hv
    have hcl : max 0 (min 1 v) = max 0 (min 1 (1 : ℚ)) := by
      rw [min_eq_left (le_of_lt hv), min_self]
    unfold bilinearSample
    rw [bilinearChannel_congr img u u _ _ 0 rfl hcl,
      bilinearChannel_congr img u u _ _ 1 rfl hcl,
      bilinearChannel_congr img u u _ _ 2 rfl hcl,
      bilinearChannel_congr img u u _ _ 3 rfl hcl]

/-- Witness for C7 at the concrete raster `imgTest`: the pole clamps with
`v = -1/2 < 0` and `v = 3/2 > 1`. -/
theorem bilinearSample_wrap_clamp_witness :
    ((-1/2 : ℚ) < 0 ∧
      bilinearSample imgTest (1/4) (-1/2) = bilinearSample imgTest (1/4) 0) ∧
    ((1 : ℚ) < 3/2 ∧
      bilinearSample imgTest (1/4) (3/2) = bilinearSample imgTest (1/4) 1) :=
  ⟨⟨by norm_num,
      (bilinearSample_wrap_clamp imgTest (1/4) (-1/2)).2.1 (by norm_num)⟩,
    ⟨by norm_num,
      (bilinearSample_wrap_clamp imgTest (1/4) (3/2)).2.2 (by norm_num)⟩⟩

/-- Every timestamp the loop pushes is a multiple of the step, clamped to the
duration. -/
theorem timesFrom_shape (duration : ℚ) (sps : ℕ) (t : ℚ) :
    List.Forall (fun x => ∃ j : ℕ, x = min (t + (j : ℚ) * stepOf sps) duration)
      (timesFrom duration sps t) := by
  rw [timesFrom]
  split
  · rw [List.forall_cons]
    refine ⟨⟨0, by norm_num⟩, ?_⟩
    have ih := timesFrom_shape duration sps (t + stepOf sps)
    refine ih.imp ?_
    rintro x ⟨j, hj⟩
    exact ⟨j + 1, by rw [hj]; push_cast; ring_nf⟩
  · exact trivial
termination_by (⌊(duration + 1/1000000 - t) * ((max 1 sps : ℕ) : ℚ)⌋ + 1).toNat
decreasing_by
  have hm : (0 : ℚ) < ((max 1 sps : ℕ) : ℚ) :=
    Nat.cast_pos.mpr (lt_of_lt_of_le one_pos (le_max_left 1 sps))
  rename_i h
  have hX : 0 ≤ (duration + 1/1000000 - t) * ((max 1 sps : ℕ) : ℚ) :=
    mul_nonneg (by linarith) hm.le
  have key : (duration + 1/1000000 - (t + stepOf sps)) * ((max 1 sps : ℕ) : ℚ)
      = (duration + 1/1000000 - t) * ((max 1 sps : ℕ) : ℚ) - 1 := by
    unfold stepOf
    field_simp
    ring
  rw [key, Int.floor_sub_one]
  have hfl : 0 ≤ ⌊(duration + 1/1000000 - t) * ((max 1 sps : ℕ) : ℚ)⌋ :=
    Int.floor_nonneg.mpr hX
  omega

/-- Concrete evaluation of the loop for duration 2 s, 1 sample per second. -/
theorem exportTimes_two_one : exportTimes 2 1 = [0, 1, 2] := by
  unfold exportTimes
  rw [timesFrom, dif_pos (by norm_num [stepOf, Nat.max_self])]
  rw [timesFrom, dif_pos (by norm_num [stepOf, Nat.max_self])]
  rw [timesFrom, dif_pos (by norm_num [stepOf, Nat.max_self])]
  rw [timesFrom, dif_neg (by norm_num [stepOf, Nat.max_self])]
  norm_num [stepOf, Nat.max_self, min_def]

/-- C8: `extractFrames` enumerates `{0, step, 2·step, …}` with each pushed
sample clamped to the duration; for duration 2.0 s, 1 sample per second and
one camera angle it produces exactly 3 export cells, at t = 0, 1, 2. -/
theorem export_scenarioA (cam : VirtualCamera) :
    exportTimes 2 1 = [0, 1, 2] ∧
    (exportCells 2 1 [cam]).map Prod.fst = [0, 1, 2] ∧
    (exportCells 2 1 [cam]).length = 3 ∧
    ∀ (d : ℚ) (sps : ℕ),
      List.Forall (fun x => ∃ j : ℕ, x = min ((j : ℚ) * stepOf sps) d)
        (exportTimes d sps) := by
  refine ⟨exportTimes_two_one, ?_, ?_, ?_⟩
  · simp [exportCells, exportTimes_two_one]
  · simp [exportCells, exportTimes_two_one]
  · intro d sps
    have h := timesFrom_shape d sps 0
    refine h.imp ?_
    rintro x ⟨j, hj⟩
    exact ⟨j, by rw [hj]; norm_num⟩

/-- The flag-threaded sanitizer agrees with the maximal-run description. -/
theorem sanitizeAux_eq_runs (l : List Char) :
    sanitizeAux false l = sanitizeRuns l ∧
    sanitizeAux true l = sanitizeRuns (l.dropWhile fun d => ! isSafeChar d) := by
  induction l with
  | nil => constructor <;> simp [sanitizeAux, sanitizeRuns]
  | cons c rest ih =>
    cases hc : isSafeChar c
    · constructor
      · show sanitizeAux false (c :: rest) = sanitizeRuns (c :: rest)
        simp only [sanitizeAux, sanitizeRuns, hc, Bool.false_eq_true,
          if_false, ite_false]
        rw [ih.2]
      · show sanitizeAux true (c :: rest)
            = sanitizeRuns ((c :: rest).dropWhile fun d => ! isSafeChar d)
        simp only [sanitizeAux, hc, Bool.false_eq_true, if_false, ite_false,
          if_true, ite_true, List.dropWhile_cons, Bool.not_false]
        exact ih.2
    · constructor
      · show sanitizeAux false (c :: rest) = sanitizeRuns (c :: rest)
        simp only [sanitizeAux, sanitizeRuns, hc, if_true, ite_true]
        rw [ih.1]
      · show sanitizeAux true (c :: rest)
            = sanitizeRuns ((c :: rest).dropWhile fun d => ! isSafeChar d)
        simp only [sanitizeAux, hc, if_true, ite_true, List.dropWhile_cons,
          Bool.not_true, Bool.false_eq_true, if_false, ite_false]
        simp only [sanitizeRuns, hc, if_true, ite_true]
        rw [ih.1]

/-- Evaluation of the timestamp part at `ts = 0`: `"0.00" → "0_00"`. -/
theorem tsUnderscore_zero : tsUnderscore 0 = "0_00" := by
  have h0 : ((0 : ℚ) * 100 + 1 / 2).floor = 0 := by
    rw [ratFloor_eq_intFloor]
    norm_num
  unfold tsUnderscore
  rw [h0]
  rfl

/-- C9 counterexample: the claim as stated predicts per-character
replacement, so label `"a!!b"` would export as `"a__b_0_00.jpg"`; the code
collapses the run `"!!"` to a single `'_'` and produces `"a_b_0_00.jpg"`. -/
theorem fileName_perChar_counterexample :
    fileName "a!!b" 7 0 = "a_b_0_00.jpg" ∧
    fileNamePerChar "a!!b" 7 0 = "a__b_0_00.jpg" ∧
    fileName "a!!b" 7 0 ≠ fileNamePerChar "a!!b" 7 0 := by
  unfold fileName fileNamePerChar
  simp only [tsUnderscore_zero]
  exact ⟨by decide, by decide, by decide⟩

/-- C9 (amended): each output image is named
`{sanitizedAngleLabel}_{timestampWithUnderscoreDecimal}.jpg`, where
sanitization replaces each maximal run of characters outside `[a-zA-Z0-9-_]`
with a single `'_'`, falling back to `Angle_{id}` if the label sanitizes to
empty. -/
theorem fileName_amended (label : String) (id : ℕ) (ts : ℚ) :
    fileName label id ts = fileNameRuns label id ts := by
  unfold fileName fileNameRuns sanitizeLabel
  rw [(sanitizeAux_eq_runs label.toList).1]

end Panopto
